import Mathlib

/-!
Shallow embedding of the sync engine (`src/server/services/autoUpdateService.js`,
sync half) and the session registry (session service + `Session` model) of the
Electron task-manager repository, together with proofs about their behaviour.

Records and sessions are modelled as Lean structures; the two stores are lists;
the Sequelize calls (`findAll`, `findOne`, `update`, `create`, `destroy`) become
list operations keyed by the correlating column (`uuid` for items, `sessionId`
for sessions).  Wall-clock time (`new Date()`) is an explicit `now : Nat`
parameter, and a fallible remote write is modelled by a `failing : Nat → Bool`
fault map saying whose remote write throws when attempted.
-/

namespace TaskApp

/-- `syncStatus` column of the local item table. -/
inductive SyncStatus where
  | pending
  | synced
  | error
deriving DecidableEq

/-- A row of the local (SQLite) item table, from `models/Item.js`:
`uuid` is the stable correlation key; `syncStatus`, `syncedAt` and `isDeleted`
are the local-only sync-tracking columns. -/
structure Item where
  uuid : Nat
  title : String
  description : String
  completed : Bool
  priority : String
  createdAt : Nat
  updatedAt : Nat
  syncStatus : SyncStatus
  syncedAt : Option Nat
  isDeleted : Bool
deriving DecidableEq

/-- A row of the remote (MSSQL) item table: no sync-tracking columns. -/
structure RemoteItem where
  uuid : Nat
  title : String
  description : String
  completed : Bool
  priority : String
  createdAt : Nat
  updatedAt : Nat
deriving DecidableEq

/-- A row of the `sessions` table, from `models/Session.js`. -/
structure Session where
  sessionId : Nat
  userId : Nat
  userEmail : String
  deviceId : Nat
  deviceName : String
  createdAt : Nat
  lastActiveAt : Nat
  expiresAt : Nat
  isActive : Bool
deriving DecidableEq

/-- `MAX_CONCURRENT_SESSIONS` constant of `models/Session.js`. -/
def MAX_CONCURRENT_SESSIONS : Nat := 1

/-! ### Keyed list operations

`findOne where key = u`, `update ... where key = u` and
`destroy where key = u` on a table modelled as a list. -/

/-- First row whose key equals `u` (Sequelize `findOne`). -/
def findBy (key : α → Nat) (u : Nat) (xs : List α) : Option α :=
  xs.find? (fun x => key x == u)

/-- Apply `f` to every row whose key equals `u` (Sequelize `update ... where`). -/
def updateBy (key : α → Nat) (u : Nat) (f : α → α) (xs : List α) : List α :=
  xs.map (fun x => if key x == u then f x else x)

/-- Remove every row whose key equals `u` (Sequelize `destroy where`). -/
def deleteBy (key : α → Nat) (u : Nat) (xs : List α) : List α :=
  xs.filter (fun x => !(key x == u))

theorem findBy_nil (key : α → Nat) (u : Nat) : findBy key u [] = none := rfl

theorem findBy_cons (key : α → Nat) (u : Nat) (x : α) (xs : List α) :
    findBy key u (x :: xs) = if key x == u then some x else findBy key u xs := by
  simp only [findBy, List.find?]
  cases h : key x == u <;> simp [h]

theorem updateBy_cons (key : α → Nat) (u : Nat) (f : α → α) (x : α) (xs : List α) :
    updateBy key u f (x :: xs)
      = (if key x == u then f x else x) :: updateBy key u f xs := by
  simp [updateBy]

theorem deleteBy_cons (key : α → Nat) (u : Nat) (x : α) (xs : List α) :
    deleteBy key u (x :: xs)
      = if key x == u then deleteBy key u xs else x :: deleteBy key u xs := by
  simp only [deleteBy, List.filter]
  cases h : key x == u <;> simp [h]

/-- Updating rows keyed `v` does not change what `findBy` returns at a key
`u ≠ v`, provided `f` does not move rows out of key `v`. -/
theorem findBy_updateBy_ne (key : α → Nat) {u v : Nat} (f : α → α)
    (hf : ∀ x, key x = v → key (f x) = v) (huv : u ≠ v) (xs : List α) :
    findBy key u (updateBy key v f xs) = findBy key u xs := by
  induction xs with
  | nil => rfl
  | cons x xs ih =>
    rw [updateBy_cons, findBy_cons, findBy_cons]
    by_cases hx : key x = v
    · have hfx : key (f x) = v := hf x hx
      simp only [hx, beq_self_eq_true, if_true, hfx]
      have h1 : (v == u) = false := by simp [Ne.symm huv]
      simp [h1, ih]
    · have h2 : (key x == v) = false := by simp [hx]
      simp [h2, ih]

/-- `findBy` at the updated key returns the image under `f` of whatever it
returned before, provided `f` keeps rows at key `v`. -/
theorem findBy_updateBy_eq (key : α → Nat) {v : Nat} (f : α → α)
    (hf : ∀ x, key x = v → key (f x) = v) (xs : List α) :
    findBy key v (updateBy key v f xs) = (findBy key v xs).map f := by
  induction xs with
  | nil => rfl
  | cons x xs ih =>
    rw [updateBy_cons, findBy_cons, findBy_cons]
    by_cases hx : key x = v
    · have hfx : key (f x) = v := hf x hx
      simp [hx, hfx]
    · have h2 : (key x == v) = false := by simp [hx]
      simp [h2, ih]

/-- Deleting rows keyed `v` does not change `findBy` at a key `u ≠ v`. -/
theorem findBy_deleteBy_ne (key : α → Nat) {u v : Nat} (huv : u ≠ v) (xs : List α) :
    findBy key u (deleteBy key v xs) = findBy key u xs := by
  induction xs with
  | nil => rfl
  | cons x xs ih =>
    rw [deleteBy_cons]
    by_cases hx : key x = v
    · have h1 : (key x == u) = false := by simp [hx, Ne.symm huv]
      have hb : (key x == v) = true := by simp [hx]
      simp [hb, h1, findBy_cons, ih]
    · have h2 : (key x == v) = false := by simp [hx]
      simp [h2, findBy_cons, ih]

/-- After deleting all rows keyed `v`, lookup at `v` finds nothing. -/
theorem findBy_deleteBy_eq (key : α → Nat) (v : Nat) (xs : List α) :
    findBy key v (deleteBy key v xs) = none := by
  induction xs with
  | nil => rfl
  | cons x xs ih =>
    rw [deleteBy_cons]
    by_cases hx : key x = v
    · simp [hx, ih]
    · have h2 : (key x == v) = false := by simp [hx]
      simp [h2, findBy_cons, ih]

/-- Appending a row with a different key does not change `findBy`. -/
theorem findBy_append_ne (key : α → Nat) {u : Nat} {x : α} (hx : key x ≠ u)
    (xs : List α) : findBy key u (xs ++ [x]) = findBy key u xs := by
  induction xs with
  | nil => simp [findBy_nil, List.nil_append, findBy_cons, hx]
  | cons y ys ih =>
    rw [List.cons_append, findBy_cons, findBy_cons, ih]

/-- Appending a row with key `u` to a list where lookup at `u` fails makes
lookup return that row. -/
theorem findBy_append_eq (key : α → Nat) {u : Nat} {x : α} (hx : key x = u)
    (xs : List α) (hnone : findBy key u xs = none) :
    findBy key u (xs ++ [x]) = some x := by
  induction xs with
  | nil => simp [List.nil_append, findBy_cons, hx]
  | cons y ys ih =>
    rw [List.cons_append, findBy_cons]
    rw [findBy_cons] at hnone
    by_cases hy : key y = u
    · simp [hy] at hnone
    · have h2 : (key y == u) = false := by simp [hy]
      simp only [h2, if_false]
      simp only [h2, if_false] at hnone
      exact ih hnone

/-- In a table whose keys are pairwise distinct, looking up a member row by
its own key returns exactly that row. -/
theorem findBy_eq_of_mem_nodup (key : α → Nat) {x : α} {xs : List α}
    (hx : x ∈ xs) (hnd : (xs.map key).Nodup) : findBy key (key x) xs = some x := by
  induction xs with
  | nil => cases hx
  | cons y ys ih =>
    rw [List.map_cons, List.nodup_cons] at hnd
    rw [findBy_cons]
    rcases List.mem_cons.mp hx with rfl | hmem
    · simp
    · have hne : key y ≠ key x := by
        intro he
        exact hnd.1 (he ▸ List.mem_map_of_mem key hmem)
      have h2 : (key y == key x) = false := by simp [hne]
      simp [h2, ih hmem hnd.2]

/-- Two member rows of a key-nodup table with the same key are the same row. -/
theorem eq_of_mem_nodup_key (key : α → Nat) {x y : α} {xs : List α}
    (hx : x ∈ xs) (hy : y ∈ xs) (hnd : (xs.map key).Nodup)
    (hk : key x = key y) : x = y := by
  have h1 := findBy_eq_of_mem_nodup key hx hnd
  have h2 := findBy_eq_of_mem_nodup key hy hnd
  rw [hk, h2] at h1
  exact (Option.some_inj.mp h1).symm

theorem length_updateBy (key : α → Nat) (u : Nat) (f : α → α) (xs : List α) :
    (updateBy key u f xs).length = xs.length := by
  simp [updateBy]

/-! ### Sync engine (`autoUpdateService.js`, sync half)

Module state (`isSyncing`, `mssqlConnected`) and the two item tables form a
`SyncState`.  The `getSqliteItemModel() / getMssqlItemModel()` null checks are
modelled by the `modelsReady` flag (false plays the role of a null model, which
makes `syncToMssql` return its `models_not_initialized` result). -/

structure SyncState where
  localItems : List Item
  remoteItems : List RemoteItem
  isSyncing : Bool
  mssqlConnected : Bool
  modelsReady : Bool
deriving DecidableEq

/-- Result of `syncToMssql`: the shapes `{success:false, reason:...}` and
`{success:true, syncedCount, errorCount, totalPending}`. -/
inductive PushResult where
  | alreadySyncing
  | notConnected
  | modelsMissing
  | completed (syncedCount errorCount totalPending : Nat)
deriving DecidableEq

/-- The `success` field of the object returned by `syncToMssql`. -/
def PushResult.success : PushResult → Bool
  | .completed _ _ _ => true
  | _ => false

/-- The `itemData` object built by `syncItem`: every remote-visible field of
the local row. -/
def itemData (l : Item) : RemoteItem :=
  { uuid := l.uuid, title := l.title, description := l.description,
    completed := l.completed, priority := l.priority,
    createdAt := l.createdAt, updatedAt := l.updatedAt }

/-- The local-row update `{syncStatus:'synced', syncedAt: new Date()}`. -/
def markSyncedI (now : Nat) (l : Item) : Item :=
  { l with syncStatus := SyncStatus.synced, syncedAt := some now }

/-- The local-row update `{syncStatus:'error'}` applied in the catch branch. -/
def markErrorI (l : Item) : Item :=
  { l with syncStatus := SyncStatus.error }

/-- One iteration of the `syncToMssql` loop body for the snapshot row `l`:
`syncDeletedItem` when `l.isDeleted`, else `syncItem`.  `none` means the
handling threw (the fault map `failing` says whose remote writes throw when
attempted); `some (L, R)` are the stores after successful handling. -/
def processOne (failing : Nat → Bool) (now : Nat) (l : Item)
    (L : List Item) (R : List RemoteItem) : Option (List Item × List RemoteItem) :=
  if l.isDeleted then
    -- syncDeletedItem: destroy remote rows with this uuid, then destroy local
    if failing l.uuid then none
    else some (deleteBy Item.uuid l.uuid L, deleteBy RemoteItem.uuid l.uuid R)
  else
    -- syncItem: look up remote by uuid
    match findBy RemoteItem.uuid l.uuid R with
    | some r =>
      if r.updatedAt < l.updatedAt then
        -- local newer: overwrite remote, then mark local synced
        if failing l.uuid then none
        else some (updateBy Item.uuid l.uuid (markSyncedI now) L,
                   updateBy RemoteItem.uuid l.uuid (fun _ => itemData l) R)
      else
        -- remote newer or equal: skip the remote write, still mark local synced
        some (updateBy Item.uuid l.uuid (markSyncedI now) L, R)
    | none =>
      -- absent remotely: create, then mark local synced
      if failing l.uuid then none
      else some (updateBy Item.uuid l.uuid (markSyncedI now) L, R ++ [itemData l])

/-- Stores and counters after the `for (const localItem of pendingItems)` loop. -/
structure LoopOut where
  localItems : List Item
  remoteItems : List RemoteItem
  syncedCount : Nat
  errorCount : Nat
deriving DecidableEq

/-- The `syncToMssql` loop: a throwing row is caught, marked `'error'` and
counted; a successful row increments `syncedCount`; the loop always proceeds
to the next row. -/
def runLoop (failing : Nat → Bool) (now : Nat) :
    List Item → List Item → List RemoteItem → Nat → Nat → LoopOut
  | [], L, R, s, e => { localItems := L, remoteItems := R, syncedCount := s, errorCount := e }
  | l :: rest, L, R, s, e =>
    match processOne failing now l L R with
    | none => runLoop failing now rest (updateBy Item.uuid l.uuid markErrorI L) R s (e + 1)
    | some (L', R') => runLoop failing now rest L' R' (s + 1) e

/-- `syncToMssql`: single-flight check, connectivity check (with one connect
attempt whose outcome is the environment bit `connectSucceeds`), model check,
then the pending-row loop.  The flag round-trips to `false` on every exit. -/
def syncToMssql (failing : Nat → Bool) (now : Nat) (connectSucceeds : Bool)
    (st : SyncState) : PushResult × SyncState :=
  if st.isSyncing then (.alreadySyncing, st)
  else if st.mssqlConnected || connectSucceeds then
    let st1 := { st with mssqlConnected := true }
    if st1.modelsReady then
      let pendingItems := st1.localItems.filter (fun i => i.syncStatus == SyncStatus.pending)
      let out := runLoop failing now pendingItems st1.localItems st1.remoteItems 0 0
      (.completed out.syncedCount out.errorCount pendingItems.length,
       { st1 with localItems := out.localItems, remoteItems := out.remoteItems })
    else (.modelsMissing, st1)
  else (.notConnected, st)

/-- Result of `syncFromMssql`. -/
inductive PullResult where
  | notConnected
  | modelsMissing
  | pulled (pulledCount : Nat)
deriving DecidableEq

/-- The `success` field of the object returned by `syncFromMssql`. -/
def PullResult.success : PullResult → Bool
  | .pulled _ => true
  | _ => false

/-- The local row created by `syncFromMssql` for a remote row with no local
counterpart. -/
def remoteToLocal (now : Nat) (r : RemoteItem) : Item :=
  { uuid := r.uuid, title := r.title, description := r.description,
    completed := r.completed, priority := r.priority,
    createdAt := r.createdAt, updatedAt := r.updatedAt,
    syncStatus := SyncStatus.synced, syncedAt := some now, isDeleted := false }

/-- The overwrite `syncFromMssql` applies to a stale synced local row. -/
def applyPull (now : Nat) (r : RemoteItem) (l : Item) : Item :=
  { l with title := r.title, description := r.description,
           completed := r.completed, priority := r.priority,
           syncedAt := some now, updatedAt := r.updatedAt }

/-- Stores and counter after the `for (const remoteItem of remoteItems)` loop. -/
structure PullOut where
  localItems : List Item
  pulledCount : Nat
deriving DecidableEq

/-- The `syncFromMssql` loop over all remote rows. -/
def pullLoop (now : Nat) : List RemoteItem → List Item → Nat → PullOut
  | [], L, n => { localItems := L, pulledCount := n }
  | r :: rest, L, n =>
    match findBy Item.uuid r.uuid L with
    | none => pullLoop now rest (L ++ [remoteToLocal now r]) (n + 1)
    | some l =>
      if l.syncStatus == SyncStatus.synced && l.updatedAt < r.updatedAt then
        pullLoop now rest (updateBy Item.uuid r.uuid (applyPull now r) L) (n + 1)
      else
        pullLoop now rest L n

/-- `syncFromMssql`: connectivity check (no connect attempt), model check,
then the remote-row loop.  It never consults or touches `isSyncing`. -/
def syncFromMssql (now : Nat) (st : SyncState) : PullResult × SyncState :=
  if st.mssqlConnected then
    if st.modelsReady then
      let out := pullLoop now st.remoteItems st.localItems 0
      (.pulled out.pulledCount, { st with localItems := out.localItems })
    else (.modelsMissing, st)
  else (.notConnected, st)

/-- The aggregate object returned by `fullSync`. -/
structure FullOut where
  success : Bool
  pushed : PushResult
  pulled : PullResult
deriving DecidableEq

/-- `fullSync`: push, then pull, then aggregate; it has no single-flight check
of its own. -/
def fullSync (failing : Nat → Bool) (now : Nat) (connectSucceeds : Bool)
    (st : SyncState) : FullOut × SyncState :=
  let push := syncToMssql failing now connectSucceeds st
  let pull := syncFromMssql now push.2
  ({ success := push.1.success && pull.1.success, pushed := push.1, pulled := pull.1 },
   pull.2)

/-- A fault map under which no remote write throws: the normal successful run. -/
def noFault : Nat → Bool := fun _ => false

/-! ### Expected per-row outcomes of one push pass

These are stated against the lookup result for the row's uuid in the remote
store as it was when the pass started; the loop lemmas below show each row of
a uuid-distinct batch ends exactly here. -/

/-- Whether handling row `l` throws, given the remote lookup at its uuid:
writes are attempted for deletions, overwrites of an older remote row and
creations, but not in the remote-newer-or-equal skip branch. -/
def itemThrowsAux (failing : Nat → Bool) (l : Item) (ro : Option RemoteItem) : Bool :=
  failing l.uuid &&
    (l.isDeleted ||
      match ro with
      | some r => decide (r.updatedAt < l.updatedAt)
      | none => true)

def itemThrows (failing : Nat → Bool) (l : Item) (R : List RemoteItem) : Bool :=
  itemThrowsAux failing l (findBy RemoteItem.uuid l.uuid R)

/-- Final local row (by uuid) for a processed batch row. -/
def expectedLocalAux (failing : Nat → Bool) (now : Nat) (l : Item)
    (ro : Option RemoteItem) : Option Item :=
  if itemThrowsAux failing l ro then some (markErrorI l)
  else if l.isDeleted then none
  else some (markSyncedI now l)

def expectedLocal (failing : Nat → Bool) (now : Nat) (l : Item)
    (R : List RemoteItem) : Option Item :=
  expectedLocalAux failing now l (findBy RemoteItem.uuid l.uuid R)

/-- Final remote row (by uuid) for a processed batch row. -/
def expectedRemoteAux (failing : Nat → Bool) (l : Item)
    (ro : Option RemoteItem) : Option RemoteItem :=
  if itemThrowsAux failing l ro then ro
  else if l.isDeleted then none
  else
    match ro with
    | some r => if r.updatedAt < l.updatedAt then some (itemData l) else some r
    | none => some (itemData l)

def expectedRemote (failing : Nat → Bool) (l : Item)
    (R : List RemoteItem) : Option RemoteItem :=
  expectedRemoteAux failing l (findBy RemoteItem.uuid l.uuid R)

/-! ### Session registry (session service)

The session table (whichever replica `getSessionModel()` picked) is a
`List Session`; the current device id, the clock and the generated
`sessionId` default are explicit parameters. -/

/-- The `WHERE userId, isActive:true, expiresAt > now` predicate used by the
count/list/eviction queries. -/
def activePred (now userId : Nat) (s : Session) : Bool :=
  s.userId == userId && s.isActive && decide (now < s.expiresAt)

/-- `cleanupExpiredSessions`: hard-delete every row that is expired
(`expiresAt < now`) or inactive. -/
def cleanupExpiredSessions (now : Nat) (ss : List Session) : List Session :=
  ss.filter (fun s => !(decide (s.expiresAt < now) || !s.isActive))

/-- `getActiveSessionCount`: cleanup, then count the user's active unexpired
rows.  Returns the count together with the store it left behind. -/
def getActiveSessionCount (now userId : Nat) (ss : List Session) :
    Nat × List Session :=
  let ss1 := cleanupExpiredSessions now ss
  ((ss1.filter (activePred now userId)).length, ss1)

/-- Insertion into a list kept ascending by `createdAt` (`ORDER BY created_at ASC`). -/
def insertByCreatedAt (s : Session) : List Session → List Session
  | [] => [s]
  | t :: ts =>
    if s.createdAt < t.createdAt then s :: t :: ts else t :: insertByCreatedAt s ts

/-- The user's active unexpired rows ordered by `createdAt` ascending. -/
def sortByCreatedAt (ss : List Session) : List Session :=
  ss.foldr insertByCreatedAt []

/-- Result of `canCreateSession`. -/
inductive CanCreate where
  | allowed (activeSessions : Nat)
  | notAllowed (activeSessions : Nat) (oldestSessions : List Session)
deriving DecidableEq

/-- `canCreateSession`: count (with cleanup); below the cap it allows,
otherwise it returns the `count - max + 1` oldest active sessions as eviction
candidates without evicting them. -/
def canCreateSession (now userId : Nat) (ss : List Session) :
    CanCreate × List Session :=
  let out := getActiveSessionCount now userId ss
  if out.1 < MAX_CONCURRENT_SESSIONS then (.allowed out.1, out.2)
  else
    (.notAllowed out.1
      ((sortByCreatedAt (out.2.filter (activePred now userId))).take
        (out.1 - MAX_CONCURRENT_SESSIONS + 1)),
     out.2)

/-- Result of `createSession`. -/
inductive CreateResult where
  | maxExceeded (activeSessions : Nat) (existingSessions : List Session)
  | updated (sessionId : Nat)
  | created (sessionId : Nat)
deriving DecidableEq

/-- `Session.update({isActive:false}, {where:{sessionId}})`. -/
def deactivateSession (sid : Nat) (ss : List Session) : List Session :=
  updateBy Session.sessionId sid (fun s => { s with isActive := false }) ss

/-- The fall-through part of `createSession` after the capacity gate: same-device
lookup (`userId`, `deviceId`, `isActive` — no expiry condition), in-place update
when found, otherwise creation of a fresh row. -/
def createSessionAfterGate (now devId newSid userId : Nat)
    (userEmail deviceName : String) (expiresAt : Nat) (ss : List Session) :
    CreateResult × List Session :=
  match ss.find? (fun s => s.userId == userId && s.deviceId == devId && s.isActive) with
  | some ex =>
    (.updated ex.sessionId,
     updateBy Session.sessionId ex.sessionId
       (fun s => { s with expiresAt := expiresAt, lastActiveAt := now }) ss)
  | none =>
    (.created newSid,
     ss ++ [{ sessionId := newSid, userId := userId, userEmail := userEmail,
              deviceId := devId, deviceName := deviceName, createdAt := now,
              lastActiveAt := now, expiresAt := expiresAt, isActive := true }])

/-- `createSession`: capacity check first; at the cap it either fails
(`forceCreate=false`) or deactivates each returned eviction candidate
(`forceCreate=true`); only then does the same-device check run. -/
def createSession (now devId newSid userId : Nat)
    (userEmail deviceName : String) (expiresAt : Nat) (forceCreate : Bool)
    (ss : List Session) : CreateResult × List Session :=
  match canCreateSession now userId ss with
  | (.allowed _, ss1) =>
    createSessionAfterGate now devId newSid userId userEmail deviceName expiresAt ss1
  | (.notAllowed cnt oldest, ss1) =>
    if forceCreate then
      createSessionAfterGate now devId newSid userId userEmail deviceName expiresAt
        (oldest.foldl (fun acc s => deactivateSession s.sessionId acc) ss1)
    else (.maxExceeded cnt oldest, ss1)

/-- `getActiveSessions`: cleanup, then the user's active unexpired rows ordered
by `createdAt` ascending, together with the store left behind. -/
def getActiveSessions (now userId : Nat) (ss : List Session) :
    List Session × List Session :=
  let ss1 := cleanupExpiredSessions now ss
  (sortByCreatedAt (ss1.filter (activePred now userId)), ss1)

/-- `validateSession`: look up by `sessionId`, `isActive`, `expiresAt > now`;
on a hit refresh `lastActiveAt`.  It performs no cleanup. -/
def validateSession (now sid : Nat) (ss : List Session) : Bool × List Session :=
  match ss.find? (fun s => s.sessionId == sid && s.isActive && decide (now < s.expiresAt)) with
  | some _ =>
    (true, updateBy Session.sessionId sid (fun s => { s with lastActiveAt := now }) ss)
  | none => (false, ss)

/-! ### Loop lemmas for the push pass -/

@[simp] theorem uuid_markSyncedI (now : Nat) (l : Item) :
    (markSyncedI now l).uuid = l.uuid := rfl

@[simp] theorem uuid_markErrorI (l : Item) : (markErrorI l).uuid = l.uuid := rfl

@[simp] theorem uuid_itemData (l : Item) : (itemData l).uuid = l.uuid := rfl

/-- A successful `processOne` step touches no row, local or remote, outside the
processed row's uuid. -/
theorem processOne_some_frame {failing : Nat → Bool} {now : Nat} {h : Item}
    {L L' : List Item} {R R' : List RemoteItem}
    (hp : processOne failing now h L R = some (L', R'))
    {u : Nat} (hu : u ≠ h.uuid) :
    findBy Item.uuid u L' = findBy Item.uuid u L ∧
    findBy RemoteItem.uuid u R' = findBy RemoteItem.uuid u R := by
  have hfS : ∀ x : Item, x.uuid = h.uuid → (markSyncedI now x).uuid = h.uuid := by
    intro x hx; simpa using hx
  unfold processOne at hp
  split at hp
  · split at hp
    · exact absurd hp (by simp)
    · rw [Option.some.injEq, Prod.mk.injEq] at hp
      obtain ⟨hL, hR⟩ := hp
      subst hL; subst hR
      exact ⟨findBy_deleteBy_ne Item.uuid hu L, findBy_deleteBy_ne RemoteItem.uuid hu R⟩
  · split at hp
    · split at hp
      · split at hp
        · exact absurd hp (by simp)
        · rw [Option.some.injEq, Prod.mk.injEq] at hp
          obtain ⟨hL, hR⟩ := hp
          subst hL; subst hR
          refine ⟨findBy_updateBy_ne Item.uuid (markSyncedI now) hfS hu L, ?_⟩
          exact findBy_updateBy_ne RemoteItem.uuid (fun _ => itemData h)
            (fun x hx => by simp) hu R
      · rw [Option.some.injEq, Prod.mk.injEq] at hp
        obtain ⟨hL, hR⟩ := hp
        subst hL; subst hR
        exact ⟨findBy_updateBy_ne Item.uuid (markSyncedI now) hfS hu L, rfl⟩
    · split at hp
      · exact absurd hp (by simp)
      · rw [Option.some.injEq, Prod.mk.injEq] at hp
        obtain ⟨hL, hR⟩ := hp
        subst hL; subst hR
        refine ⟨findBy_updateBy_ne Item.uuid (markSyncedI now) hfS hu L, ?_⟩
        exact findBy_append_ne RemoteItem.uuid (by simpa using hu.symm) R

/-- The push loop touches no row, local or remote, whose uuid is not in the
processed batch. -/
theorem runLoop_frame {failing : Nat → Bool} {now : Nat} :
    ∀ (items : List Item) (L : List Item) (R : List RemoteItem) (s e : Nat) {u : Nat},
      u ∉ items.map Item.uuid →
      findBy Item.uuid u (runLoop failing now items L R s e).localItems
          = findBy Item.uuid u L ∧
      findBy RemoteItem.uuid u (runLoop failing now items L R s e).remoteItems
          = findBy RemoteItem.uuid u R := by
  intro items
  induction items with
  | nil => intro L R s e u _; exact ⟨rfl, rfl⟩
  | cons h rest ih =>
    intro L R s e u hu
    rw [List.map_cons, List.mem_cons] at hu
    push_neg at hu
    obtain ⟨hu1, hu2⟩ := hu
    rw [runLoop]
    cases hp : processOne failing now h L R with
    | none =>
      have := ih (updateBy Item.uuid h.uuid markErrorI L) R s (e + 1) hu2
      refine ⟨?_, this.2⟩
      rw [this.1]
      exact findBy_updateBy_ne Item.uuid markErrorI (fun x hx => by simpa using hx) hu1 L
    | some p =>
      obtain ⟨L', R'⟩ := p
      have hframe := processOne_some_frame hp hu1
      have := ih L' R' (s + 1) e hu2
      exact ⟨this.1.trans hframe.1, this.2.trans hframe.2⟩

/-- Whether a row's handling throws, and where its rows end up, depends on the
remote store only through the lookup at the row's own uuid. -/
theorem itemThrows_congr {failing : Nat → Bool} {l : Item} {R R' : List RemoteItem}
    (h : findBy RemoteItem.uuid l.uuid R = findBy RemoteItem.uuid l.uuid R') :
    itemThrows failing l R = itemThrows failing l R' := by
  unfold itemThrows; rw [h]

theorem expectedLocal_congr {failing : Nat → Bool} {now : Nat} {l : Item}
    {R R' : List RemoteItem}
    (h : findBy RemoteItem.uuid l.uuid R = findBy RemoteItem.uuid l.uuid R') :
    expectedLocal failing now l R = expectedLocal failing now l R' := by
  unfold expectedLocal; rw [h]

theorem expectedRemote_congr {failing : Nat → Bool} {l : Item}
    {R R' : List RemoteItem}
    (h : findBy RemoteItem.uuid l.uuid R = findBy RemoteItem.uuid l.uuid R') :
    expectedRemote failing l R = expectedRemote failing l R' := by
  unfold expectedRemote; rw [h]

/-- `processOne` throws exactly when `itemThrows` says so. -/
theorem processOne_eq_none_iff {failing : Nat → Bool} {now : Nat} {h : Item}
    {L : List Item} {R : List RemoteItem} :
    processOne failing now h L R = none ↔ itemThrows failing h R = true := by
  unfold processOne itemThrows itemThrowsAux
  cases hd : h.isDeleted <;> cases hf : failing h.uuid <;>
    cases hro : findBy RemoteItem.uuid h.uuid R <;>
    first
      | (simp [hd, hf, hro]; done)
      | (rename_i r
         by_cases hlt : r.updatedAt < h.updatedAt <;> simp [hd, hf, hro, hlt])

theorem expectedLocal_of_throws {failing : Nat → Bool} {now : Nat} {l : Item}
    {R : List RemoteItem} (ht : itemThrows failing l R = true) :
    expectedLocal failing now l R = some (markErrorI l) := by
  unfold itemThrows at ht
  simp [expectedLocal, expectedLocalAux, ht]

theorem expectedRemote_of_throws {failing : Nat → Bool} {l : Item}
    {R : List RemoteItem} (ht : itemThrows failing l R = true) :
    expectedRemote failing l R = findBy RemoteItem.uuid l.uuid R := by
  unfold itemThrows at ht
  simp [expectedRemote, expectedRemoteAux, ht]

/-- After a successful `processOne` step, the processed row's local and remote
rows are exactly the expected per-row outcome. -/
theorem processOne_self_find_some {failing : Nat → Bool} {now : Nat} {h : Item}
    {L L' : List Item} {R R' : List RemoteItem}
    (hL : findBy Item.uuid h.uuid L = some h)
    (hp : processOne failing now h L R = some (L', R')) :
    findBy Item.uuid h.uuid L' = expectedLocal failing now h R ∧
    findBy RemoteItem.uuid h.uuid R' = expectedRemote failing h R := by
  have hthrow : itemThrows failing h R = false := by
    cases hit : itemThrows failing h R
    · rfl
    · rw [processOne_eq_none_iff.mpr hit] at hp
      exact absurd hp (by simp)
  have hthrowAux := hthrow
  unfold itemThrows at hthrowAux
  have hfS : ∀ x : Item, x.uuid = h.uuid → (markSyncedI now x).uuid = h.uuid := by
    intro x hx; simpa using hx
  by_cases hd : h.isDeleted = true
  · have hf : failing h.uuid = false := by
      unfold itemThrowsAux at hthrowAux
      simpa [hd] using hthrowAux
    simp only [processOne, hd, if_true, hf, Bool.false_eq_true, if_false,
      Option.some.injEq, Prod.mk.injEq] at hp
    obtain ⟨hL1, hR1⟩ := hp
    subst hL1; subst hR1
    constructor
    · rw [findBy_deleteBy_eq Item.uuid h.uuid L]
      simp [expectedLocal, expectedLocalAux, hthrowAux, hd]
    · rw [findBy_deleteBy_eq RemoteItem.uuid h.uuid R]
      simp [expectedRemote, expectedRemoteAux, hthrowAux, hd]
  · have hdf : h.isDeleted = false := by simpa using hd
    cases hro : findBy RemoteItem.uuid h.uuid R with
    | none =>
      rw [hro] at hthrowAux
      have hf : failing h.uuid = false := by
        unfold itemThrowsAux at hthrowAux
        simpa [hdf] using hthrowAux
      simp only [processOne, hdf, Bool.false_eq_true, if_false, hro, hf,
        Option.some.injEq, Prod.mk.injEq] at hp
      obtain ⟨hL1, hR1⟩ := hp
      subst hL1; subst hR1
      constructor
      · rw [findBy_updateBy_eq Item.uuid (markSyncedI now) hfS L, hL]
        simp [expectedLocal, expectedLocalAux, hthrowAux, hdf, hro]
      · rw [findBy_append_eq RemoteItem.uuid (by simp) R hro]
        simp [expectedRemote, expectedRemoteAux, hthrowAux, hdf, hro]
    | some r =>
      rw [hro] at hthrowAux
      by_cases hlt : r.updatedAt < h.updatedAt
      · have hf : failing h.uuid = false := by
          unfold itemThrowsAux at hthrowAux
          simpa [hdf, hlt] using hthrowAux
        simp only [processOne, hdf, Bool.false_eq_true, if_false, hro, hlt,
          if_true, hf, Option.some.injEq, Prod.mk.injEq] at hp
        obtain ⟨hL1, hR1⟩ := hp
        subst hL1; subst hR1
        constructor
        · rw [findBy_updateBy_eq Item.uuid (markSyncedI now) hfS L, hL]
          simp [expectedLocal, expectedLocalAux, hthrowAux, hdf, hro]
        · rw [findBy_updateBy_eq RemoteItem.uuid (fun _ => itemData h) (fun x hx => by simp) R, hro]
          simp [expectedRemote, expectedRemoteAux, hthrowAux, hdf, hro, hlt]
      · simp only [processOne, hdf, Bool.false_eq_true, if_false, hro, hlt,
          Option.some.injEq, Prod.mk.injEq] at hp
        obtain ⟨hL1, hR1⟩ := hp
        subst hL1; subst hR1
        constructor
        · rw [findBy_updateBy_eq Item.uuid (markSyncedI now) hfS L, hL]
          simp [expectedLocal, expectedLocalAux, hthrowAux, hdf, hro]
        · rw [hro]
          simp [expectedRemote, expectedRemoteAux, hthrowAux, hdf, hro, hlt]

/-- Per-row outcome of a whole push pass: in a batch of uuid-distinct rows each
of which is the store's row for its uuid, every batch row's final local and
remote rows are the expected per-row outcome computed against the initial
remote store. -/
theorem runLoop_find {failing : Nat → Bool} {now : Nat} :
    ∀ (items : List Item) (L : List Item) (R : List RemoteItem) (s e : Nat),
      (items.map Item.uuid).Nodup →
      (∀ m ∈ items, findBy Item.uuid m.uuid L = some m) →
      ∀ l ∈ items,
        findBy Item.uuid l.uuid (runLoop failing now items L R s e).localItems
            = expectedLocal failing now l R
        ∧ findBy RemoteItem.uuid l.uuid (runLoop failing now items L R s e).remoteItems
            = expectedRemote failing l R := by
  intro items
  induction items with
  | nil => intro L R s e _ _ l hl; cases hl
  | cons h rest ih =>
    intro L R s e hnd hL l hl
    rw [List.map_cons, List.nodup_cons] at hnd
    have hnotin : h.uuid ∉ rest.map Item.uuid := hnd.1
    have hfindh : findBy Item.uuid h.uuid L = some h := hL h (List.mem_cons_self h rest)
    rw [runLoop]
    rcases List.mem_cons.mp hl with rfl | hmem
    · cases hp : processOne failing now l L R with
      | none =>
        have hfr := @runLoop_frame failing now rest
          (updateBy Item.uuid l.uuid markErrorI L) R s (e + 1) l.uuid hnotin
        have ht : itemThrows failing l R = true := processOne_eq_none_iff.mp hp
        constructor
        · rw [hfr.1, findBy_updateBy_eq Item.uuid markErrorI (fun x hx => by simpa using hx) L,
            hfindh, expectedLocal_of_throws ht]
          rfl
        · rw [hfr.2, expectedRemote_of_throws ht]
      | some p =>
        obtain ⟨L', R'⟩ := p
        have hfr := @runLoop_frame failing now rest L' R' (s + 1) e l.uuid hnotin
        have hself := processOne_self_find_some hfindh hp
        exact ⟨hfr.1.trans hself.1, hfr.2.trans hself.2⟩
    · have hne : l.uuid ≠ h.uuid := fun he => hnotin (he ▸ List.mem_map_of_mem Item.uuid hmem)
      cases hp : processOne failing now h L R with
      | none =>
        have hL' : ∀ m ∈ rest,
            findBy Item.uuid m.uuid (updateBy Item.uuid h.uuid markErrorI L) = some m := by
          intro m hm
          have hmne : m.uuid ≠ h.uuid := fun he => hnotin (he ▸ List.mem_map_of_mem Item.uuid hm)
          rw [findBy_updateBy_ne Item.uuid markErrorI (fun x hx => by simpa using hx) hmne L]
          exact hL m (List.mem_cons_of_mem h hm)
        exact ih (updateBy Item.uuid h.uuid markErrorI L) R s (e + 1) hnd.2 hL' l hmem
      | some p =>
        obtain ⟨L', R'⟩ := p
        have hframe := processOne_some_frame hp hne
        have hL' : ∀ m ∈ rest, findBy Item.uuid m.uuid L' = some m := by
          intro m hm
          have hmne : m.uuid ≠ h.uuid := fun he => hnotin (he ▸ List.mem_map_of_mem Item.uuid hm)
          rw [(processOne_some_frame hp hmne).1]
          exact hL m (List.mem_cons_of_mem h hm)
        have hrec := ih L' R' (s + 1) e hnd.2 hL' l hmem
        exact ⟨hrec.1.trans (expectedLocal_congr hframe.2),
               hrec.2.trans (expectedRemote_congr hframe.2)⟩

/-- Counters after a push pass over a uuid-distinct batch: the error counter is
the number of batch rows whose handling throws (judged against the initial
remote store), the synced counter is the rest. -/
theorem runLoop_counts {failing : Nat → Bool} {now : Nat} :
    ∀ (items : List Item) (L : List Item) (R : List RemoteItem) (s e : Nat),
      (items.map Item.uuid).Nodup →
      (runLoop failing now items L R s e).errorCount
          = e + (items.filter (fun l => itemThrows failing l R)).length
      ∧ (runLoop failing now items L R s e).syncedCount
          = s + (items.length - (items.filter (fun l => itemThrows failing l R)).length) := by
  intro items
  induction items with
  | nil => intro L R s e _; simp [runLoop]
  | cons h rest ih =>
    intro L R s e hnd
    rw [List.map_cons, List.nodup_cons] at hnd
    have hnotin : h.uuid ∉ rest.map Item.uuid := hnd.1
    rw [runLoop]
    cases hp : processOne failing now h L R with
    | none =>
      have ht : itemThrows failing h R = true := processOne_eq_none_iff.mp hp
      have hrec := ih (updateBy Item.uuid h.uuid markErrorI L) R s (e + 1) hnd.2
      rw [List.filter_cons, if_pos (by simp [ht])]
      constructor
      · rw [hrec.1]
        simp only [List.length_cons]
        omega
      · rw [hrec.2]
        simp only [List.length_cons]
        omega
    | some p =>
      obtain ⟨L', R'⟩ := p
      have ht : itemThrows failing h R = false := by
        cases hit : itemThrows failing h R
        · rfl
        · rw [processOne_eq_none_iff.mpr hit] at hp
          exact absurd hp (by simp)
      have hcong : rest.filter (fun l => itemThrows failing l R')
          = rest.filter (fun l => itemThrows failing l R) := by
        refine List.filter_congr ?_
        intro m hm
        have hmne : m.uuid ≠ h.uuid := fun he => hnotin (he ▸ List.mem_map_of_mem Item.uuid hm)
        exact itemThrows_congr (processOne_some_frame hp hmne).2
      have hrec := ih L' R' (s + 1) e hnd.2
      have hle := List.length_filter_le (fun l => itemThrows failing l R) rest
      rw [List.filter_cons, if_neg (by simp [ht])]
      constructor
      · rw [hrec.1, hcong]
      · rw [hrec.2, hcong]
        simp only [List.length_cons]
        omega

/-! ### Loop lemmas for the pull pass -/

@[simp] theorem uuid_applyPull (now : Nat) (r : RemoteItem) (l : Item) :
    (applyPull now r l).uuid = l.uuid := rfl

@[simp] theorem uuid_remoteToLocal (now : Nat) (r : RemoteItem) :
    (remoteToLocal now r).uuid = r.uuid := rfl

/-- Final shape of an existing local row after a pull against the remote
lookup at its uuid: untouched, unless it is synced and strictly older. -/
def expectedPullAux (now : Nat) (l : Item) : Option RemoteItem → Item
  | none => l
  | some r =>
    if l.syncStatus == SyncStatus.synced && l.updatedAt < r.updatedAt then
      applyPull now r l
    else l

/-- The pull loop touches no local row whose uuid is absent from the remote
batch it walks. -/
theorem pullLoop_frame {now : Nat} :
    ∀ (rems : List RemoteItem) (L : List Item) (n : Nat) {u : Nat},
      u ∉ rems.map RemoteItem.uuid →
      findBy Item.uuid u (pullLoop now rems L n).localItems = findBy Item.uuid u L := by
  intro rems
  induction rems with
  | nil => intro L n u _; rfl
  | cons r rest ih =>
    intro L n u hu
    rw [List.map_cons, List.mem_cons] at hu
    push_neg at hu
    obtain ⟨hu1, hu2⟩ := hu
    rw [pullLoop]
    cases hfl : findBy Item.uuid r.uuid L with
    | none =>
      rw [ih (L ++ [remoteToLocal now r]) (n + 1) hu2]
      exact findBy_append_ne Item.uuid (by simpa using hu1.symm) L
    | some l =>
      dsimp only
      by_cases hc : (l.syncStatus == SyncStatus.synced && l.updatedAt < r.updatedAt) = true
      · rw [if_pos hc, ih (updateBy Item.uuid r.uuid (applyPull now r) L) (n + 1) hu2]
        exact findBy_updateBy_ne Item.uuid (applyPull now r)
          (fun x hx => by simpa using hx) hu1 L
      · rw [if_neg hc]
        exact ih L n hu2

/-- Per-row outcome of a pull pass over a uuid-distinct remote batch: every
pre-existing local row ends as `expectedPullAux` of the remote lookup at its
uuid. -/
theorem pullLoop_find {now : Nat} :
    ∀ (rems : List RemoteItem) (L : List Item) (n : Nat),
      (rems.map RemoteItem.uuid).Nodup →
      ∀ (u : Nat) (l : Item), findBy Item.uuid u L = some l →
        findBy Item.uuid u (pullLoop now rems L n).localItems
          = some (expectedPullAux now l (findBy RemoteItem.uuid u rems)) := by
  intro rems
  induction rems with
  | nil => intro L n _ u l hfl; simpa [pullLoop, findBy_nil, expectedPullAux] using hfl
  | cons r rest ih =>
    intro L n hnd u l hfl
    rw [List.map_cons, List.nodup_cons] at hnd
    rw [pullLoop, findBy_cons]
    by_cases hru : r.uuid = u
    · have hb : (r.uuid == u) = true := by simp [hru]
      rw [hb, if_pos rfl]
      subst hru
      rw [hfl]
      dsimp only
      by_cases hc : (l.syncStatus == SyncStatus.synced && l.updatedAt < r.updatedAt) = true
      · rw [if_pos hc, @pullLoop_frame now rest
          (updateBy Item.uuid r.uuid (applyPull now r) L) (n + 1) r.uuid hnd.1,
          findBy_updateBy_eq Item.uuid (applyPull now r) (fun x hx => by simpa using hx) L,
          hfl]
        simp [expectedPullAux, hc]
      · rw [if_neg hc, @pullLoop_frame now rest L n r.uuid hnd.1, hfl]
        simp [expectedPullAux, hc]
    · have hb : (r.uuid == u) = false := by simp [hru]
      rw [hb, if_neg (by simp)]
      cases hfr : findBy Item.uuid r.uuid L with
      | none =>
        have hfl2 : findBy Item.uuid u (L ++ [remoteToLocal now r]) = some l := by
          rw [findBy_append_ne Item.uuid (by simpa using hru) L]
          exact hfl
        exact ih (L ++ [remoteToLocal now r]) (n + 1) hnd.2 u l hfl2
      | some l2 =>
        dsimp only
        by_cases hc : (l2.syncStatus == SyncStatus.synced && l2.updatedAt < r.updatedAt) = true
        · rw [if_pos hc]
          have hfl2 : findBy Item.uuid u (updateBy Item.uuid r.uuid (applyPull now r) L)
              = some l := by
            rw [findBy_updateBy_ne Item.uuid (applyPull now r)
              (fun x hx => by simpa using hx) (Ne.symm hru) L]
            exact hfl
          exact ih (updateBy Item.uuid r.uuid (applyPull now r) L) (n + 1) hnd.2 u l hfl2
        · rw [if_neg hc]
          exact ih L n hnd.2 u l hfl

/-! ### Assembly lemmas for the exported sync operations -/

/-- The batch `syncToMssql` snapshots: local rows with `syncStatus = 'pending'`
(soft-deleted rows included). -/
def pendingOf (st : SyncState) : List Item :=
  st.localItems.filter (fun i => i.syncStatus == SyncStatus.pending)

theorem pendingOf_nodup {st : SyncState}
    (hnd : (st.localItems.map Item.uuid).Nodup) :
    ((pendingOf st).map Item.uuid).Nodup :=
  List.Nodup.sublist (List.Sublist.map Item.uuid (List.filter_sublist _)) hnd

theorem pendingOf_find {st : SyncState}
    (hnd : (st.localItems.map Item.uuid).Nodup) :
    ∀ m ∈ pendingOf st, findBy Item.uuid m.uuid st.localItems = some m := by
  intro m hm
  exact findBy_eq_of_mem_nodup Item.uuid (List.mem_of_mem_filter hm) hnd

/-- `syncToMssql` under the normal flags (idle, connected, models present)
runs the pending loop and returns the `completed` result. -/
theorem syncToMssql_run {failing : Nat → Bool} {now : Nat} {cs : Bool}
    {st : SyncState} (hs : st.isSyncing = false) (hc : st.mssqlConnected = true)
    (hm : st.modelsReady = true) :
    syncToMssql failing now cs st
      = (PushResult.completed
           (runLoop failing now (pendingOf st) st.localItems st.remoteItems 0 0).syncedCount
           (runLoop failing now (pendingOf st) st.localItems st.remoteItems 0 0).errorCount
           (pendingOf st).length,
         { st with
             localItems :=
               (runLoop failing now (pendingOf st) st.localItems st.remoteItems 0 0).localItems,
             remoteItems :=
               (runLoop failing now (pendingOf st) st.localItems st.remoteItems 0 0).remoteItems }) := by
  have hst1 : { st with mssqlConnected := true } = st := by
    cases st
    simp only at hc
    rw [hc]
  unfold syncToMssql
  rw [hs]
  simp only [Bool.false_eq_true, if_false, hc, Bool.true_or, if_true, hst1, hm, pendingOf]

/-- `syncFromMssql` under connected flags runs the pull loop. -/
theorem syncFromMssql_run {now : Nat} {st : SyncState}
    (hc : st.mssqlConnected = true) (hm : st.modelsReady = true) :
    syncFromMssql now st
      = (PullResult.pulled (pullLoop now st.remoteItems st.localItems 0).pulledCount,
         { st with localItems := (pullLoop now st.remoteItems st.localItems 0).localItems }) := by
  unfold syncFromMssql
  rw [hc, hm]
  simp

/-- Whatever branch `syncToMssql` takes, a local or remote row whose uuid is
outside the pending batch is untouched. -/
theorem syncToMssql_frame (failing : Nat → Bool) (now : Nat) (cs : Bool)
    (st : SyncState) {u : Nat} (hu : u ∉ (pendingOf st).map Item.uuid) :
    findBy Item.uuid u (syncToMssql failing now cs st).2.localItems
        = findBy Item.uuid u st.localItems
    ∧ findBy RemoteItem.uuid u (syncToMssql failing now cs st).2.remoteItems
        = findBy RemoteItem.uuid u st.remoteItems := by
  by_cases hs : st.isSyncing = true
  · simp [syncToMssql, hs]
  · have hs' : st.isSyncing = false := by simpa using hs
    by_cases hcc : (st.mssqlConnected || cs) = true
    · by_cases hm : st.modelsReady = true
      · have hfr := @runLoop_frame failing now (pendingOf st) st.localItems st.remoteItems 0 0 u hu
        unfold syncToMssql
        rw [hs']
        simp only [Bool.false_eq_true, if_false, hcc, if_true, hm, pendingOf]
        exact hfr
      · unfold syncToMssql
        rw [hs']
        simp only [Bool.false_eq_true, if_false, hcc, if_true]
        rw [if_neg (by simpa using hm)]
        exact ⟨by trivial, by trivial⟩
    · have hcc' : (st.mssqlConnected || cs) = false := by simpa using hcc
      unfold syncToMssql
      rw [hs']
      simp only [Bool.false_eq_true, if_false, hcc']
      exact ⟨by trivial, by trivial⟩

/-! ### Concrete fixtures -/

def itemC1 : Item := ⟨1, "a", "", false, "low", 0, 5, SyncStatus.pending, none, false⟩
def remC1 : RemoteItem := ⟨1, "b", "", true, "high", 0, 9⟩
def stC1 : SyncState :=
  { localItems := [itemC1], remoteItems := [remC1],
    isSyncing := false, mssqlConnected := true, modelsReady := true }
def itemC1w : Item := ⟨1, "a", "", false, "low", 0, 10, SyncStatus.pending, none, false⟩
def remC1w : RemoteItem := ⟨1, "b", "", true, "high", 0, 4⟩
def stC1w : SyncState :=
  { localItems := [itemC1w], remoteItems := [remC1w],
    isSyncing := false, mssqlConnected := true, modelsReady := true }

def itemC2 : Item := ⟨1, "a", "", false, "low", 0, 5, SyncStatus.error, none, false⟩
def stC2 : SyncState :=
  { localItems := [itemC2], remoteItems := [],
    isSyncing := false, mssqlConnected := true, modelsReady := true }

def remC5 : RemoteItem := ⟨1, "t", "", false, "low", 0, 5⟩
def stC5 : SyncState :=
  { localItems := [], remoteItems := [remC5],
    isSyncing := true, mssqlConnected := true, modelsReady := true }

def itemC7 : Item := ⟨2, "x", "", false, "low", 0, 3, SyncStatus.pending, none, true⟩
def remC7 : RemoteItem := ⟨2, "x", "", false, "low", 0, 1⟩
def stC7 : SyncState :=
  { localItems := [itemC7], remoteItems := [remC7],
    isSyncing := false, mssqlConnected := true, modelsReady := true }

def stC8 : SyncState :=
  { localItems := [], remoteItems := [],
    isSyncing := false, mssqlConnected := false, modelsReady := true }

def itemC9a : Item := ⟨1, "a", "", false, "low", 0, 5, SyncStatus.pending, none, false⟩
def itemC9b : Item := ⟨2, "b", "", false, "low", 0, 5, SyncStatus.pending, none, false⟩
def stC9 : SyncState :=
  { localItems := [itemC9a, itemC9b], remoteItems := [],
    isSyncing := false, mssqlConnected := true, modelsReady := true }
def failC9 : Nat → Bool := fun u => u == 2

/-! ### Claim theorems: sync engine -/

/-- C1 counterexample: a pending local row (updatedAt 5) whose remote
counterpart is strictly newer (updatedAt 9) is pushed: the remote row is left
unchanged, but the local row is marked `synced`, not left `pending` as the
claim states. -/
theorem c1_counterexample :
    (syncToMssql noFault 20 true stC1).2.localItems
      = [⟨1, "a", "", false, "low", 0, 5, SyncStatus.synced, some 20, false⟩]
    ∧ (syncToMssql noFault 20 true stC1).2.remoteItems = [remC1] :=
  ⟨rfl, rfl⟩

/-- C1 (amended): for a pending, non-deleted local record whose uuid matches an
existing remote record, a fault-free push leaves the remote record unchanged
when `remote.updatedAt ≥ local.updatedAt` and overwrites it with the local
fields when `local.updatedAt > remote.updatedAt`; in both cases the local
record is marked `synced` with `syncedAt` refreshed (it never stays
`pending`). -/
theorem c1_push_lww (st : SyncState) (now : Nat) (cs : Bool) (l : Item)
    (r : RemoteItem)
    (hs : st.isSyncing = false) (hc : st.mssqlConnected = true)
    (hm : st.modelsReady = true)
    (hnd : (st.localItems.map Item.uuid).Nodup)
    (hl : l ∈ st.localItems) (hp : l.syncStatus = SyncStatus.pending)
    (hdel : l.isDeleted = false)
    (hr : findBy RemoteItem.uuid l.uuid st.remoteItems = some r) :
    findBy Item.uuid l.uuid (syncToMssql noFault now cs st).2.localItems
        = some (markSyncedI now l)
    ∧ findBy RemoteItem.uuid l.uuid (syncToMssql noFault now cs st).2.remoteItems
        = (if r.updatedAt < l.updatedAt then some (itemData l) else some r) := by
  have hlp : l ∈ pendingOf st := List.mem_filter.mpr ⟨hl, by simp [hp]⟩
  have hfind := @runLoop_find noFault now (pendingOf st) st.localItems st.remoteItems 0 0
      (pendingOf_nodup hnd) (pendingOf_find hnd) l hlp
  rw [syncToMssql_run hs hc hm]
  refine ⟨?_, ?_⟩
  · show findBy Item.uuid l.uuid
      (runLoop noFault now (pendingOf st) st.localItems st.remoteItems 0 0).localItems = _
    rw [hfind.1]
    simp [expectedLocal, expectedLocalAux, itemThrowsAux, noFault, hdel]
  · show findBy RemoteItem.uuid l.uuid
      (runLoop noFault now (pendingOf st) st.localItems st.remoteItems 0 0).remoteItems = _
    rw [hfind.2]
    simp [expectedRemote, expectedRemoteAux, itemThrowsAux, noFault, hdel, hr]

/-- C1 witness: a local row newer than its remote counterpart is pushed over
it and marked synced. -/
theorem c1_push_lww_witness :
    findBy Item.uuid 1 (syncToMssql noFault 20 true stC1w).2.localItems
        = some (markSyncedI 20 itemC1w)
    ∧ findBy RemoteItem.uuid 1 (syncToMssql noFault 20 true stC1w).2.remoteItems
        = (if remC1w.updatedAt < itemC1w.updatedAt then some (itemData itemC1w)
           else some remC1w) :=
  c1_push_lww stC1w 20 true itemC1w remC1w rfl rfl rfl (by decide) (by decide)
    rfl rfl (by decide)

/-- C2 counterexample: a store whose only record has `syncStatus = 'error'`
while the remote store is reachable: the push pass selects nothing
(`totalPending = 0`), and the record stays `error` instead of being retried
and transitioning to `synced` as the claim states. -/
theorem c2_counterexample :
    (syncToMssql noFault 9 true stC2).1 = PushResult.completed 0 0 0
    ∧ (syncToMssql noFault 9 true stC2).2.localItems = [itemC2]
    ∧ itemC2.syncStatus = SyncStatus.error :=
  ⟨rfl, rfl, rfl⟩

/-- C2 (amended): a local record with `syncStatus = 'error'` is never selected
by a push pass — `syncToMssql` selects only `syncStatus = 'pending'` rows — and
is left completely unchanged by the pass, whatever the connectivity or fault
situation. -/
theorem c2_error_not_selected (st : SyncState) (failing : Nat → Bool)
    (now : Nat) (cs : Bool) (l : Item)
    (hnd : (st.localItems.map Item.uuid).Nodup)
    (hl : l ∈ st.localItems) (he : l.syncStatus = SyncStatus.error) :
    l ∉ pendingOf st
    ∧ findBy Item.uuid l.uuid (syncToMssql failing now cs st).2.localItems = some l := by
  have hnotp : l ∉ pendingOf st := by
    intro hmem
    have := (List.mem_filter.mp hmem).2
    simp [he] at this
  refine ⟨hnotp, ?_⟩
  have hu : l.uuid ∉ (pendingOf st).map Item.uuid := by
    intro hmem
    obtain ⟨m, hm, hmu⟩ := List.mem_map.mp hmem
    have hml : m = l :=
      eq_of_mem_nodup_key Item.uuid (List.mem_of_mem_filter hm) hl hnd hmu
    subst hml
    exact hnotp hm
  rw [(syncToMssql_frame failing now cs st hu).1]
  exact findBy_eq_of_mem_nodup Item.uuid hl hnd

/-- C2 witness: the concrete error row is outside the pending selection and
untouched by the pass. -/
theorem c2_error_not_selected_witness :
    itemC2 ∉ pendingOf stC2
    ∧ findBy Item.uuid 1 (syncToMssql noFault 9 true stC2).2.localItems = some itemC2 :=
  c2_error_not_selected stC2 noFault 9 true itemC2 (by decide) (by decide) rfl

/-- C5 counterexample: with the in-flight flag set and a remote row absent
locally, `fullSync` has its push leg rejected with `already_syncing` but still
runs the pull leg, which creates a local row — the rejected invocation does
mutate a local record, contrary to the claim. -/
theorem c5_counterexample :
    (fullSync noFault 7 true stC5).1.pushed = PushResult.alreadySyncing
    ∧ stC5.localItems = []
    ∧ (fullSync noFault 7 true stC5).2.localItems = [remoteToLocal 7 remC5] :=
  ⟨rfl, rfl, rfl⟩

/-- C5 (amended): while a push is in flight, a concurrent `syncToMssql`
returns the distinguishable `already_syncing` result and mutates nothing; a
concurrent `fullSync` has only its push leg rejected — its pull leg still runs
(and may mutate local records), and the aggregate reports failure. -/
theorem c5_single_flight (st : SyncState) (failing : Nat → Bool) (now : Nat)
    (cs : Bool) (h : st.isSyncing = true) :
    syncToMssql failing now cs st = (.alreadySyncing, st)
    ∧ fullSync failing now cs st
        = ({ success := false, pushed := PushResult.alreadySyncing,
             pulled := (syncFromMssql now st).1 },
           (syncFromMssql now st).2) := by
  have h1 : syncToMssql failing now cs st = (.alreadySyncing, st) := by
    unfold syncToMssql
    rw [h]
    simp
  refine ⟨h1, ?_⟩
  simp only [fullSync, h1]
  rfl

/-- C5 witness: concrete in-flight state; the push leg alone is rejected with
no state change. -/
theorem c5_single_flight_witness :
    syncToMssql noFault 7 true stC5 = (.alreadySyncing, stC5) :=
  (c5_single_flight stC5 noFault 7 true rfl).1

/-- C7 (confirmed): a pending soft-deleted local record is removed from both
stores by a fault-free push — the remote row with its uuid is deleted if
present (absence being a no-op), then the local row is hard-deleted — and the
pass reports success. -/
theorem c7_deletion_terminal (st : SyncState) (now : Nat) (cs : Bool) (l : Item)
    (hs : st.isSyncing = false) (hc : st.mssqlConnected = true)
    (hm : st.modelsReady = true)
    (hnd : (st.localItems.map Item.uuid).Nodup)
    (hl : l ∈ st.localItems) (hp : l.syncStatus = SyncStatus.pending)
    (hdel : l.isDeleted = true) :
    (syncToMssql noFault now cs st).1.success = true
    ∧ findBy Item.uuid l.uuid (syncToMssql noFault now cs st).2.localItems = none
    ∧ findBy RemoteItem.uuid l.uuid (syncToMssql noFault now cs st).2.remoteItems = none := by
  have hlp : l ∈ pendingOf st := List.mem_filter.mpr ⟨hl, by simp [hp]⟩
  have hfind := @runLoop_find noFault now (pendingOf st) st.localItems st.remoteItems 0 0
      (pendingOf_nodup hnd) (pendingOf_find hnd) l hlp
  rw [syncToMssql_run hs hc hm]
  refine ⟨rfl, ?_, ?_⟩
  · show findBy Item.uuid l.uuid
      (runLoop noFault now (pendingOf st) st.localItems st.remoteItems 0 0).localItems = none
    rw [hfind.1]
    simp [expectedLocal, expectedLocalAux, itemThrowsAux, noFault, hdel]
  · show findBy RemoteItem.uuid l.uuid
      (runLoop noFault now (pendingOf st) st.localItems st.remoteItems 0 0).remoteItems = none
    rw [hfind.2]
    simp [expectedRemote, expectedRemoteAux, itemThrowsAux, noFault, hdel]

/-- C7 witness: a concrete deleted pending row with an existing remote
counterpart ends in neither store. -/
theorem c7_deletion_terminal_witness :
    (syncToMssql noFault 9 true stC7).1.success = true
    ∧ findBy Item.uuid 2 (syncToMssql noFault 9 true stC7).2.localItems = none
    ∧ findBy RemoteItem.uuid 2 (syncToMssql noFault 9 true stC7).2.remoteItems = none :=
  c7_deletion_terminal stC7 9 true itemC7 rfl rfl rfl (by decide) (by decide) rfl rfl

/-- C8 (confirmed): with the remote store unreachable and the connection
attempt failing, `syncToMssql` short-circuits with the `not_connected` result
and the state — both stores included — is returned unchanged. -/
theorem c8_not_connected (st : SyncState) (failing : Nat → Bool) (now : Nat)
    (hs : st.isSyncing = false) (hc : st.mssqlConnected = false) :
    syncToMssql failing now false st = (.notConnected, st) := by
  unfold syncToMssql
  rw [hs, hc]
  simp

/-- C8 witness. -/
theorem c8_not_connected_witness :
    syncToMssql noFault 5 false stC8 = (.notConnected, stC8) :=
  c8_not_connected stC8 noFault 5 rfl rfl

/-- C9 (confirmed): when exactly one batch row's remote write throws during a
push pass, the pass still succeeds with `errorCount = 1`, only the throwing
row is marked `'error'`, and every other pending row transitions normally
(synced, or removed from both stores when soft-deleted). -/
theorem c9_partial_failure (st : SyncState) (failing : Nat → Bool) (now : Nat)
    (cs : Bool)
    (hs : st.isSyncing = false) (hc : st.mssqlConnected = true)
    (hm : st.modelsReady = true)
    (hnd : (st.localItems.map Item.uuid).Nodup)
    (hone : ((pendingOf st).filter
        (fun l => itemThrows failing l st.remoteItems)).length = 1) :
    (syncToMssql failing now cs st).1
        = PushResult.completed ((pendingOf st).length - 1) 1 (pendingOf st).length
    ∧ (syncToMssql failing now cs st).1.success = true
    ∧ (∀ l ∈ pendingOf st, itemThrows failing l st.remoteItems = false →
        (l.isDeleted = false →
          findBy Item.uuid l.uuid (syncToMssql failing now cs st).2.localItems
            = some (markSyncedI now l))
        ∧ (l.isDeleted = true →
          findBy Item.uuid l.uuid (syncToMssql failing now cs st).2.localItems = none
          ∧ findBy RemoteItem.uuid l.uuid (syncToMssql failing now cs st).2.remoteItems
              = none))
    ∧ (∀ l ∈ pendingOf st, itemThrows failing l st.remoteItems = true →
        findBy Item.uuid l.uuid (syncToMssql failing now cs st).2.localItems
          = some (markErrorI l)) := by
  have hcounts := @runLoop_counts failing now (pendingOf st) st.localItems st.remoteItems 0 0
      (pendingOf_nodup hnd)
  rw [syncToMssql_run hs hc hm]
  have h1 := hcounts.1
  rw [hone] at h1
  have h2 := hcounts.2
  rw [hone] at h2
  refine ⟨?_, rfl, ?_, ?_⟩
  · rw [h1, h2]
    simp [Nat.zero_add]
  · intro l hl ht
    have hfind := @runLoop_find failing now (pendingOf st) st.localItems st.remoteItems 0 0
        (pendingOf_nodup hnd) (pendingOf_find hnd) l hl
    unfold itemThrows at ht
    constructor
    · intro hdel
      show findBy Item.uuid l.uuid
        (runLoop failing now (pendingOf st) st.localItems st.remoteItems 0 0).localItems = _
      rw [hfind.1]
      simp [expectedLocal, expectedLocalAux, ht, hdel]
    · intro hdel
      constructor
      · show findBy Item.uuid l.uuid
          (runLoop failing now (pendingOf st) st.localItems st.remoteItems 0 0).localItems = none
        rw [hfind.1]
        simp [expectedLocal, expectedLocalAux, ht, hdel]
      · show findBy RemoteItem.uuid l.uuid
          (runLoop failing now (pendingOf st) st.localItems st.remoteItems 0 0).remoteItems = none
        rw [hfind.2]
        simp [expectedRemote, expectedRemoteAux, ht, hdel]
  · intro l hl ht
    have hfind := @runLoop_find failing now (pendingOf st) st.localItems st.remoteItems 0 0
        (pendingOf_nodup hnd) (pendingOf_find hnd) l hl
    show findBy Item.uuid l.uuid
      (runLoop failing now (pendingOf st) st.localItems st.remoteItems 0 0).localItems = _
    rw [hfind.1, expectedLocal_of_throws ht]

/-- C9 witness: a two-row batch where only the second row's remote write
throws returns `syncedCount = 1, errorCount = 1, totalPending = 2`. -/
theorem c9_partial_failure_witness :
    (syncToMssql failC9 9 true stC9).1 = PushResult.completed 1 1 2 :=
  (c9_partial_failure stC9 failC9 9 true rfl rfl rfl (by decide) (by decide)).1

def itemC6 : Item := ⟨3, "p", "", false, "low", 0, 2, SyncStatus.pending, none, false⟩
def remC6 : RemoteItem := ⟨3, "q", "", true, "high", 0, 8⟩
def stC6 : SyncState :=
  { localItems := [itemC6], remoteItems := [remC6],
    isSyncing := false, mssqlConnected := true, modelsReady := true }

/-- C6 (confirmed): a pull never modifies an existing local record whose
`syncStatus` is not `'synced'`, even when the matching remote record is
strictly newer; an existing local record is overwritten only when it is
`'synced'` and the remote record is strictly newer, and that overwrite
refreshes `syncedAt` (the `applyPull` shape). -/
theorem c6_pull_non_clobber (st : SyncState) (now : Nat) (l : Item)
    (hc : st.mssqlConnected = true) (hm : st.modelsReady = true)
    (hndL : (st.localItems.map Item.uuid).Nodup)
    (hndR : (st.remoteItems.map RemoteItem.uuid).Nodup)
    (hl : l ∈ st.localItems) :
    (l.syncStatus ≠ SyncStatus.synced →
        findBy Item.uuid l.uuid (syncFromMssql now st).2.localItems = some l)
    ∧ (∀ r, findBy RemoteItem.uuid l.uuid st.remoteItems = some r →
        ¬ l.updatedAt < r.updatedAt →
        findBy Item.uuid l.uuid (syncFromMssql now st).2.localItems = some l)
    ∧ (∀ r, findBy RemoteItem.uuid l.uuid st.remoteItems = some r →
        l.syncStatus = SyncStatus.synced → l.updatedAt < r.updatedAt →
        findBy Item.uuid l.uuid (syncFromMssql now st).2.localItems
          = some (applyPull now r l)) := by
  have hfl : findBy Item.uuid l.uuid st.localItems = some l :=
    findBy_eq_of_mem_nodup Item.uuid hl hndL
  have hpull := @pullLoop_find now st.remoteItems st.localItems 0 hndR l.uuid l hfl
  rw [syncFromMssql_run hc hm]
  refine ⟨?_, ?_, ?_⟩
  · intro hns
    show findBy Item.uuid l.uuid
      (pullLoop now st.remoteItems st.localItems 0).localItems = some l
    rw [hpull]
    cases hro : findBy RemoteItem.uuid l.uuid st.remoteItems with
    | none => simp [expectedPullAux]
    | some r =>
      have hbeq : (l.syncStatus == SyncStatus.synced) = false := by simp [hns]
      simp [expectedPullAux, hbeq]
  · intro r hro hnl
    show findBy Item.uuid l.uuid
      (pullLoop now st.remoteItems st.localItems 0).localItems = some l
    rw [hpull, hro]
    simp [expectedPullAux, hnl]
  · intro r hro hsync hlt
    show findBy Item.uuid l.uuid
      (pullLoop now st.remoteItems st.localItems 0).localItems = some (applyPull now r l)
    rw [hpull, hro]
    simp [expectedPullAux, hsync, hlt]

/-- C6 witness: a concrete pending row with a strictly newer remote
counterpart survives the pull byte-for-byte. -/
theorem c6_pull_non_clobber_witness :
    findBy Item.uuid 3 (syncFromMssql 9 stC6).2.localItems = some itemC6 :=
  (c6_pull_non_clobber stC6 9 itemC6 rfl rfl (by decide) (by decide)
    (by decide)).1 (by decide)

/-! ### Claim theorems: session registry -/

def sesC3 : Session := ⟨1, 7, "", 3, "", 0, 0, 100, true⟩
def sesC3w : Session := ⟨1, 7, "", 3, "", 0, 0, 10, true⟩

/-- C3 counterexample: with `MAX_CONCURRENT_SESSIONS = 1`, the device that
already holds the user's one active unexpired session calls `createSession`
without `forceCreate` and gets the capacity failure — the capacity gate runs
before the same-device check, so the call does not succeed as the claim
states. -/
theorem c3_counterexample :
    createSession 10 3 2 7 "" "" 200 false [sesC3]
      = (.maxExceeded 1 [sesC3], [sesC3]) := rfl

/-- C3 (amended): the same-device in-place update happens only when the
capacity gate passes: when the user's active-unexpired count is below
`MAX_CONCURRENT_SESSIONS` and the current device holds an active session row
for the user, `createSession` (with any `forceCreate`) refreshes that row's
`expiresAt`/`lastActiveAt` in place, returns success, and adds or removes no
row. -/
theorem c3_same_device_below_cap
    (now devId newSid userId : Nat) (em dn : String) (e2 : Nat) (fc : Bool)
    (ss : List Session) (ex : Session)
    (hcnt : ((cleanupExpiredSessions now ss).filter (activePred now userId)).length
        < MAX_CONCURRENT_SESSIONS)
    (hex : (cleanupExpiredSessions now ss).find?
        (fun s => s.userId == userId && s.deviceId == devId && s.isActive) = some ex) :
    createSession now devId newSid userId em dn e2 fc ss
      = (.updated ex.sessionId,
         updateBy Session.sessionId ex.sessionId
           (fun s => { s with expiresAt := e2, lastActiveAt := now })
           (cleanupExpiredSessions now ss))
    ∧ ((createSession now devId newSid userId em dn e2 fc ss).2).length
        = (cleanupExpiredSessions now ss).length := by
  have hrun : createSession now devId newSid userId em dn e2 fc ss
      = createSessionAfterGate now devId newSid userId em dn e2
          (cleanupExpiredSessions now ss) := by
    unfold createSession canCreateSession getActiveSessionCount
    dsimp only
    rw [if_pos hcnt]
  have hgate : createSessionAfterGate now devId newSid userId em dn e2
        (cleanupExpiredSessions now ss)
      = (.updated ex.sessionId,
         updateBy Session.sessionId ex.sessionId
           (fun s => { s with expiresAt := e2, lastActiveAt := now })
           (cleanupExpiredSessions now ss)) := by
    unfold createSessionAfterGate
    rw [hex]
  rw [hrun, hgate]
  exact ⟨rfl, length_updateBy Session.sessionId ex.sessionId _ _⟩

/-- C3 witness: a same-device row with `expiresAt = now` survives cleanup but
is not counted as active-unexpired, so the gate passes and the row is updated
in place. -/
theorem c3_same_device_below_cap_witness :
    createSession 10 3 2 7 "" "" 200 false [sesC3w]
      = (.updated sesC3w.sessionId,
         updateBy Session.sessionId sesC3w.sessionId
           (fun s => { s with expiresAt := 200, lastActiveAt := 10 })
           (cleanupExpiredSessions 10 [sesC3w]))
    ∧ ((createSession 10 3 2 7 "" "" 200 false [sesC3w]).2).length
        = (cleanupExpiredSessions 10 [sesC3w]).length :=
  c3_same_device_below_cap 10 3 2 7 "" "" 200 false [sesC3w] sesC3w
    (by decide) (by decide)

/-- C4 (confirmed): with `MAX_CONCURRENT_SESSIONS = 1` and exactly one active
session (on device `a`, unexpired), `createSession` from a different device `b`
without `forceCreate` fails with the capacity result and creates no row; with
`forceCreate = true` it deactivates exactly the one oldest session and creates
the new row, leaving exactly one active unexpired session for the user. -/
theorem c4_session_cap (now a b newSid userId : Nat) (em dn : String) (e2 : Nat)
    (ss : List Session) (sA : Session)
    (hfilter : (cleanupExpiredSessions now ss).filter (activePred now userId) = [sA])
    (honly : ∀ s ∈ cleanupExpiredSessions now ss,
        (s.userId == userId && s.isActive) = true → s = sA)
    (hdevA : sA.deviceId = a) (hab : a ≠ b) (hnew : now < e2) :
    createSession now b newSid userId em dn e2 false ss
      = (.maxExceeded 1 [sA], cleanupExpiredSessions now ss)
    ∧ createSession now b newSid userId em dn e2 true ss
      = (.created newSid,
         deactivateSession sA.sessionId (cleanupExpiredSessions now ss)
           ++ [({ sessionId := newSid, userId := userId, userEmail := em,
                  deviceId := b, deviceName := dn, createdAt := now,
                  lastActiveAt := now, expiresAt := e2, isActive := true } : Session)])
    ∧ (deactivateSession sA.sessionId (cleanupExpiredSessions now ss)
         ++ [({ sessionId := newSid, userId := userId, userEmail := em,
                deviceId := b, deviceName := dn, createdAt := now,
                lastActiveAt := now, expiresAt := e2, isActive := true } : Session)]).filter
          (activePred now userId)
      = [({ sessionId := newSid, userId := userId, userEmail := em,
            deviceId := b, deviceName := dn, createdAt := now,
            lastActiveAt := now, expiresAt := e2, isActive := true } : Session)] := by
  have hcnt : ((cleanupExpiredSessions now ss).filter (activePred now userId)).length = 1 := by
    rw [hfilter]
    rfl
  have hsort : sortByCreatedAt
      ((cleanupExpiredSessions now ss).filter (activePred now userId)) = [sA] := by
    rw [hfilter]
    rfl
  have hcan : canCreateSession now userId ss
      = (CanCreate.notAllowed 1 [sA], cleanupExpiredSessions now ss) := by
    unfold canCreateSession getActiveSessionCount
    dsimp only
    rw [hcnt, if_neg (by decide), hsort]
    rfl
  have hnone : (deactivateSession sA.sessionId (cleanupExpiredSessions now ss)).find?
      (fun s => s.userId == userId && s.deviceId == b && s.isActive) = none := by
    apply List.find?_eq_none.mpr
    intro x hx
    unfold deactivateSession updateBy at hx
    obtain ⟨t, ht, rfl⟩ := List.mem_map.mp hx
    by_cases hts : (t.sessionId == sA.sessionId) = true
    · simp [hts]
    · have hts2 : (t.sessionId == sA.sessionId) = false := by simpa using hts
      rw [if_neg (by simp [hts2])]
      intro hpred
      simp only [Bool.and_eq_true] at hpred
      have hts3 : t = sA := honly t ht (by simp [hpred.1.1, hpred.2])
      rw [hts3] at hts2
      simp at hts2
  have hleft : (deactivateSession sA.sessionId (cleanupExpiredSessions now ss)).filter
      (activePred now userId) = [] := by
    rw [List.filter_eq_nil_iff]
    intro x hx
    unfold deactivateSession updateBy at hx
    obtain ⟨t, ht, rfl⟩ := List.mem_map.mp hx
    by_cases hts : (t.sessionId == sA.sessionId) = true
    · simp [hts, activePred]
    · have hts2 : (t.sessionId == sA.sessionId) = false := by simpa using hts
      rw [if_neg (by simp [hts2])]
      intro hpred
      unfold activePred at hpred
      simp only [Bool.and_eq_true] at hpred
      have hts3 : t = sA := honly t ht (by simp [hpred.1.1, hpred.1.2])
      rw [hts3] at hts2
      simp at hts2
  refine ⟨?_, ?_, ?_⟩
  · unfold createSession
    simp [hcan]
  · unfold createSession
    simp [hcan, createSessionAfterGate, hnone]
  · rw [List.filter_append, hleft]
    have hb2 : activePred now userId
        ({ sessionId := newSid, userId := userId, userEmail := em,
           deviceId := b, deviceName := dn, createdAt := now,
           lastActiveAt := now, expiresAt := e2, isActive := true } : Session) = true := by
      simp [activePred, hnew]
    simp [hb2]

def sesC4 : Session := ⟨1, 7, "", 3, "", 0, 0, 100, true⟩

/-- C4 witness: one active session on device 3, a second device 4 is refused
without force and evicts exactly that session with force. -/
theorem c4_session_cap_witness :
    createSession 10 4 2 7 "" "" 200 false [sesC4]
      = (.maxExceeded 1 [sesC4], cleanupExpiredSessions 10 [sesC4])
    ∧ createSession 10 4 2 7 "" "" 200 true [sesC4]
      = (.created 2,
         deactivateSession sesC4.sessionId (cleanupExpiredSessions 10 [sesC4])
           ++ [({ sessionId := 2, userId := 7, userEmail := "", deviceId := 4,
                  deviceName := "", createdAt := 10, lastActiveAt := 10,
                  expiresAt := 200, isActive := true } : Session)])
    ∧ (deactivateSession sesC4.sessionId (cleanupExpiredSessions 10 [sesC4])
         ++ [({ sessionId := 2, userId := 7, userEmail := "", deviceId := 4,
                deviceName := "", createdAt := 10, lastActiveAt := 10,
                expiresAt := 200, isActive := true } : Session)]).filter (activePred 10 7)
      = [({ sessionId := 2, userId := 7, userEmail := "", deviceId := 4,
            deviceName := "", createdAt := 10, lastActiveAt := 10,
            expiresAt := 200, isActive := true } : Session)] :=
  c4_session_cap 10 3 4 2 7 "" "" 200 [sesC4] sesC4 (by decide) (by decide)
    rfl (by decide) (by decide)

def sesC10 : Session := ⟨1, 7, "", 3, "", 0, 0, 5, true⟩

/-- C10 counterexample: an active but expired row (`expiresAt = 5 < now = 10`)
is left in the store by `validateSession` on its own `sessionId`, although
`cleanupExpiredSessions` would hard-delete it — so `validateSession` does not
trigger the garbage collection the claim says it does. -/
theorem c10_counterexample :
    (validateSession 10 1 [sesC10]).2 = [sesC10]
    ∧ cleanupExpiredSessions 10 [sesC10] = [] :=
  ⟨rfl, rfl⟩

/-- C10 (amended): `cleanupExpiredSessions` is invoked at the start of the
count (`getActiveSessionCount`) and list (`getActiveSessions`) paths — both
leave exactly the cleaned store behind — but `validateSession` performs no
cleanup: it never removes a row (the store keeps its length), relying instead
on the `isActive`/`expiresAt` conditions of its own lookup. -/
theorem c10_cleanup_paths (now userId sid : Nat) (ss : List Session) :
    (getActiveSessionCount now userId ss).2 = cleanupExpiredSessions now ss
    ∧ (getActiveSessions now userId ss).2 = cleanupExpiredSessions now ss
    ∧ ((validateSession now sid ss).2).length = ss.length := by
  refine ⟨rfl, rfl, ?_⟩
  unfold validateSession
  cases hfind : ss.find?
      (fun s => s.sessionId == sid && s.isActive && decide (now < s.expiresAt)) with
  | none => rfl
  | some s =>
    dsimp only
    exact length_updateBy Session.sessionId sid _ _

end TaskApp
